import Mathlib

/-!
Verification development for the configuration-search harness in
`config_optimization/optimize.py`.  The Python source is shallowly embedded:
dictionaries of metrics become a `Metrics` structure (every numeric field is
modelled as an exact rational, matching the arithmetic the source performs),
the CSV artifact becomes a list of `Row` values whose fields record whether
the textual cell converts to a number, and the driver loop of `main` becomes
an explicit fold over per-candidate events.
-/

namespace ConfigOpt

/-- One nginx parameter set, as produced by `generate_grid_configs` /
`get_default_config` (the values of the nested `nginx` mapping). -/
structure NginxConfig where
  worker_connections : Int
  keepalive_timeout : Int
  upstream_keepalive : Int
deriving DecidableEq, Repr

/-- The metrics dictionary built by `parse_locust_results` / `run_load_test`.
Keys missing from the Python dict are read back through `.get(key, 0)`, so a
missing key is observationally the zero value; the structure therefore
carries all four numeric fields plus the optional error string. -/
structure Metrics where
  rps : ℚ
  avg_response_time : ℚ
  total_requests : Int
  success_rate : ℚ
  error : Option String
deriving DecidableEq, Repr

/-- The all-zero metrics dictionary initialised at the top of
`parse_locust_results`. -/
def zeroMetrics : Metrics :=
  { rps := 0, avg_response_time := 0, total_requests := 0,
    success_rate := 0, error := none }

/-- One entry of the `history` list of `main`:
`{'iteration': i, 'config': c, 'metrics': m}`. -/
structure IterationRecord where
  iteration : Nat
  config : NginxConfig
  metrics : Metrics
deriving DecidableEq, Repr

/-- The default configuration returned by `get_default_config` (its `nginx`
sub-dictionary). -/
def get_default_config : NginxConfig :=
  { worker_connections := 1024, keepalive_timeout := 65, upstream_keepalive := 32 }

/-! ### Result parsing (`parse_locust_results`) -/

/-- The fate of one CSV cell under numeric conversion: absent from the row
(`row.get` returns the default `0`, which converts to zero), convertible to
a value, or raising on conversion (`float` / `int` throwing `ValueError`). -/
inductive FVal (α : Type) where
  | missing : FVal α
  | good : α → FVal α
  | bad : FVal α
deriving DecidableEq, Repr

/-- Run the conversion of a cell: `none` models the conversion raising,
`some v` a successful conversion (a missing cell converts the default `0`,
hence the argument `d`). -/
def FVal.conv {α : Type} (d : α) : FVal α → Option α
  | .missing => some d
  | .good a => some a
  | .bad => none

/-- One row of the locust stats CSV, restricted to the fields
`parse_locust_results` reads. -/
structure Row where
  typeField : Option String
  nameField : Option String
  requests_s : FVal ℚ
  avg_response_time : FVal ℚ
  request_count : FVal Int
  failure_count : FVal Int
deriving DecidableEq, Repr

/-- The row test of line 220 of optimize.py:
`row.get('Type') == 'Aggregated' or row.get('Name') == 'Aggregated'`. -/
def isAgg (r : Row) : Bool :=
  r.typeField == some "Aggregated" || r.nameField == some "Aggregated"

/-- The scanning loop of `parse_locust_results`, carrying the mutable
`metrics` dictionary.  An exception raised by a field conversion aborts the
whole loop (the `try` wraps it) and the accumulated `metrics` value is
returned as-is; the first matching row `break`s after its extraction. -/
def parseRows : List Row → Metrics → Metrics
  | [], m => m
  | row :: rest, m =>
    if isAgg row then
      match row.requests_s.conv 0 with
      | none => m
      | some rps =>
        let m1 := { m with rps := rps }
        match row.avg_response_time.conv 0 with
        | none => m1
        | some art =>
          let m2 := { m1 with avg_response_time := art }
          match row.request_count.conv 0 with
          | none => m2
          | some tr =>
            match row.failure_count.conv 0 with
            | none => m2
            | some tf =>
              if 0 < tr then
                { m2 with total_requests := tr,
                          success_rate := ((tr : ℚ) - (tf : ℚ)) / (tr : ℚ) * 100 }
              else m2
    else parseRows rest m

/-- `parse_locust_results`: `none` models the artifact failing to open or
the CSV reader raising before any row is seen; otherwise the rows are
scanned starting from the zero-valued metrics dictionary. -/
def parse_locust_results : Option (List Row) → Metrics
  | none => zeroMetrics
  | some rows => parseRows rows zeroMetrics

/-! ### Load-test invocation (`run_load_test`) -/

/-- A file in the results directory: name, modification time, and the rows
the parser would read from it (`none` = unreadable). -/
structure ArtifactFile where
  name : String
  mtime : ℚ
  content : Option (List Row)

/-- Character-list prefix test (body of the glob's literal matching). -/
def globLead : List Char → List Char → Bool
  | [], _ => true
  | _ :: _, [] => false
  | a :: as, c :: cs => a == c && globLead as cs

/-- The glob pattern `test_*_stats.csv` on a bare filename: the name
starts with `test_`, ends with `_stats.csv`, and is long enough for the
two literal parts not to overlap (`*` may match the empty string). -/
def matchesStatsGlob (s : String) : Bool :=
  globLead ("test_".data) s.data &&
    globLead ("_stats.csv".data.reverse) s.data.reverse && 15 ≤ s.length

/-- Stable insertion of a file into a list sorted by decreasing mtime
(Python `sorted(..., reverse=True)` keeps the original order of ties). -/
def insertDesc (f : ArtifactFile) : List ArtifactFile → List ArtifactFile
  | [] => [f]
  | g :: gs => if f.mtime > g.mtime then f :: g :: gs else g :: insertDesc f gs

/-- `sorted(stats_files, key=mtime, reverse=True)`. -/
def sortByMtimeDesc : List ArtifactFile → List ArtifactFile
  | [] => []
  | f :: fs => insertDesc f (sortByMtimeDesc fs)

/-- The environment one `run_load_test` call observes: how long the test
script invocation runs, and the results directory (`none` = absent). -/
structure LoadTestWorld where
  elapsed : Nat
  resultsDir : Option (List ArtifactFile)

/-- Error string of the `subprocess.TimeoutExpired` branch
(Russian for "test exceeded maximum time"). -/
def timeLimitError : String := "Тест превысил максимальное время"

/-- Error string for a missing results directory. -/
def noDirError : String := "Директория результатов не найдена"

/-- Error string for no matching stats CSV. -/
def noCsvError : String := "CSV файл результатов не найден"

/-- `run_load_test(users, spawn_rate, duration, base_dir)`.  The subprocess
call is bounded by `timeout=duration + 120`; exceeding it raises
`TimeoutExpired`, which is converted to a zero-metrics error return.  The
users/spawn-rate arguments only feed the external script, so the embedding
keeps the duration (which fixes the bound) and the observed world. -/
def run_load_test (duration : Nat) (w : LoadTestWorld) : Metrics :=
  if duration + 120 < w.elapsed then
    { zeroMetrics with error := some timeLimitError }
  else
    match w.resultsDir with
    | none => { zeroMetrics with error := some noDirError }
    | some files =>
      match sortByMtimeDesc (files.filter (fun f => matchesStatsGlob f.name)) with
      | [] => { zeroMetrics with error := some noCsvError }
      | f :: _ => parse_locust_results f.content

/-! ### Configuration editing (`apply_nginx_config`)

The three `re.sub` calls are embedded as scanners over `List Char`.  Each
pattern is deterministic once greediness is resolved: `\s+` and `\d+` are
maximal runs followed by a required literal, and the `[^}]*` of the
upstream pattern, being greedy, selects the last `keepalive <int>;`
directive occurring before the first closing brace. -/

/-- Python `\s` on the characters appearing in such files. -/
def isSpaceChar (c : Char) : Bool :=
  c == ' ' || c == '\t' || c == '\n' || c == '\r' || c == '\x0b' || c == '\x0c'

/-- Python `\d` (ASCII digits). -/
def isDigitChar (c : Char) : Bool :=
  '0' ≤ c && c ≤ '9'

/-- Match a literal character sequence, returning the rest of the input. -/
def matchLit : List Char → List Char → Option (List Char)
  | [], l => some l
  | _ :: _, [] => none
  | a :: as, c :: cs => if a == c then matchLit as cs else none

/-- Match a maximal non-empty run of characters satisfying `p`, returning
the consumed run and the rest. -/
def spanPlus (p : Char → Bool) : List Char → Option (List Char × List Char)
  | [] => none
  | c :: cs => if p c then some (c :: cs.takeWhile p, cs.dropWhile p) else none

/-- After the directive name: match `\s+\d+;`, returning the rest. -/
def matchDirTail (l : List Char) : Option (List Char) :=
  match spanPlus isSpaceChar l with
  | none => none
  | some (_, l1) =>
    match spanPlus isDigitChar l1 with
    | none => none
    | some (_, l2) =>
      match l2 with
      | ';' :: rest => some rest
      | _ => none

/-- Match `lit ++ \s+ ++ \d+ ++ ;` at the head of the input. -/
def matchDir (lit l : List Char) : Option (List Char) :=
  match matchLit lit l with
  | none => none
  | some l1 => matchDirTail l1

/-- `re.sub(lit + r'\s+\d+;', lit + ' ' + new + ';', content)`: scan left to
right, replace every match, resume after the match.  The fuel argument is
an upper bound on the remaining input length, so structural recursion on it
suffices (every step consumes at least one character). -/
def subDirAux (lit newNum : List Char) : Nat → List Char → List Char
  | _, [] => []
  | 0, l => l
  | fuel + 1, c :: cs =>
    match matchDir lit (c :: cs) with
    | some rest => lit ++ ' ' :: (newNum ++ ';' :: subDirAux lit newNum fuel rest)
    | none => c :: subDirAux lit newNum fuel cs

/-- Substitution of one `name <int>;` directive pattern over the whole file. -/
def subDir (lit newNum content : List Char) : List Char :=
  subDirAux lit newNum content.length content

/-- After the `keepalive` literal: match `\s+\d+` then the second capture
group `(\s*;)`; returns (whitespace of group 1, group 2 text, rest). -/
def matchKATail (l : List Char) : Option (List Char × List Char × List Char) :=
  match spanPlus isSpaceChar l with
  | none => none
  | some (ws, l1) =>
    match spanPlus isDigitChar l1 with
    | none => none
    | some (_, l2) =>
      match l2.dropWhile isSpaceChar with
      | ';' :: rest => some (ws, l2.takeWhile isSpaceChar ++ [';'], rest)
      | _ => none

/-- Match the whole `keepalive\s+\d+(\s*;)` directive at the head; first
component is the part of capture group 1 starting at `keepalive`. -/
def matchKAdir (l : List Char) : Option (List Char × List Char × List Char) :=
  match matchLit ("keepalive".data) l with
  | none => none
  | some l1 =>
    match matchKATail l1 with
    | none => none
    | some (ws, g2, rest) => some ("keepalive".data ++ ws, g2, rest)

/-- Resolve the greedy `[^}]*`: find the last offset before the first `}`
at which the keepalive directive matches.  Returns (skipped text up to and
including `keepalive\s+`, group 2 text, rest). -/
def lastKA : List Char → Option (List Char × List Char × List Char)
  | [] => none
  | c :: cs =>
    if c == '}' then none
    else
      match lastKA cs with
      | some (skip, g2, rest) => some (c :: skip, g2, rest)
      | none => matchKAdir (c :: cs)

/-- The literal prefix `upstream backend \{` of the upstream pattern. -/
def upLit : List Char := "upstream backend \x7b".data

/-- Match the full upstream pattern at the head of the input, returning
(group 1 text, group 2 text, rest). -/
def matchUpstream (l : List Char) : Option (List Char × List Char × List Char) :=
  match matchLit upLit l with
  | none => none
  | some l1 =>
    match lastKA l1 with
    | none => none
    | some (mid, g2, rest) => some (upLit ++ mid, g2, rest)

/-- `re.sub` with the upstream pattern: replacement is group 1, the new
number, then group 2 (only the digits are replaced). -/
def subUpstreamAux (newNum : List Char) : Nat → List Char → List Char
  | _, [] => []
  | 0, l => l
  | fuel + 1, c :: cs =>
    match matchUpstream (c :: cs) with
    | some (g1, g2, rest) => g1 ++ newNum ++ (g2 ++ subUpstreamAux newNum fuel rest)
    | none => c :: subUpstreamAux newNum fuel cs

/-- Substitution of the scoped upstream keepalive over the whole file. -/
def subUpstream (newNum content : List Char) : List Char :=
  subUpstreamAux newNum content.length content

/-- A configuration dictionary as `apply_nginx_config` receives it: each of
the three recognised keys may be present or absent. -/
structure PartialConfig where
  worker_connections : Option Int
  keepalive_timeout : Option Int
  upstream_keepalive : Option Int

/-- Decimal rendering used by the f-string replacements. -/
def intChars (v : Int) : List Char := (toString v).data

/-- The content transformation of `apply_nginx_config`: the three guarded
`re.sub` calls in source order. -/
def apply_nginx_config (cfg : PartialConfig) (content : List Char) : List Char :=
  let c1 := match cfg.worker_connections with
    | some v => subDir ("worker_connections".data) (intChars v) content
    | none => content
  let c2 := match cfg.keepalive_timeout with
    | some v => subDir ("keepalive_timeout".data) (intChars v) c1
    | none => c1
  match cfg.upstream_keepalive with
  | some v => subUpstream (intChars v) c2
  | none => c2

/-! ### Candidate generation (`generate_grid_configs`) and truncation -/

/-- The `worker_connections` axis of `generate_grid_configs`. -/
def wcValues (g : Nat) : List ℚ :=
  if g ≤ 4 then ([512, 1024, 1536, 2048] : List ℚ).take g
  else (List.range g).map fun (i : Nat) => 512 + (i : ℚ) * ((2048 - 512) / ((g : ℚ) - 1))

/-- The `keepalive_timeout` axis of `generate_grid_configs`. -/
def ktValues (g : Nat) : List ℚ :=
  if g ≤ 4 then ([30, 60, 90, 120] : List ℚ).take g
  else (List.range g).map fun (i : Nat) => 30 + (i : ℚ) * ((120 - 30) / ((g : ℚ) - 1))

/-- The `upstream_keepalive` axis of `generate_grid_configs`. -/
def ukValues (g : Nat) : List ℚ :=
  if g ≤ 4 then ([16, 32, 48, 64] : List ℚ).take g
  else (List.range g).map fun (i : Nat) => 16 + (i : ℚ) * ((64 - 16) / ((g : ℚ) - 1))

/-- `generate_grid_configs`: the triple-nested loop appending the cross
product of the three axes; `int(...)` on a nonnegative float truncates,
i.e. floors. -/
def generate_grid_configs (g : Nat) : List NginxConfig :=
  (wcValues g).flatMap fun wc =>
    (ktValues g).flatMap fun kt =>
      (ukValues g).map fun uk =>
        { worker_connections := ⌊wc⌋, keepalive_timeout := ⌊kt⌋,
          upstream_keepalive := ⌊uk⌋ }

/-- Lines 475-476 of optimize.py: after the shuffle,
`if len(configs) > args.iterations: configs = configs[:args.iterations]`. -/
def truncateConfigs (iterations : Nat) (l : List NginxConfig) : List NginxConfig :=
  if iterations < l.length then l.take iterations else l

/-! ### The search driver loop of `main` -/

/-- What one candidate iteration observes: the reset step failing
(`continue`), a completed load test with its parsed metrics, or the user
interrupt arriving while this candidate is being processed (before its
record is appended). -/
inductive IterEvent where
  | resetFail : IterEvent
  | tested : Metrics → IterEvent
  | interrupt : IterEvent
deriving DecidableEq

/-- One agenda entry: the iteration index, the candidate configuration, and
what happens when the driver processes it. -/
abbrev Cand := Nat × NginxConfig × IterEvent

/-- The loop state of `main`: the `history` list and the best-so-far pair
`(best_rps, best_config)`. -/
structure LoopState where
  history : List IterationRecord
  best_rps : ℚ
  best_config : NginxConfig
deriving DecidableEq

/-- Lines 527-535 of optimize.py for a candidate whose reset succeeded:
append the record, then `if rps > best_rps:` update the best pair. -/
def applyTested (st : LoopState) (i : Nat) (cfg : NginxConfig) (m : Metrics) : LoopState :=
  let st1 := { st with history := st.history ++ [⟨i, cfg, m⟩] }
  if m.rps > st1.best_rps then
    { st1 with best_rps := m.rps, best_config := cfg }
  else st1

/-- The candidate loop (lines 509-535): reset failure skips the candidate,
a completed test records and updates, and a `KeyboardInterrupt` stops the
loop immediately (the Boolean of the result tells whether it was stopped by
the interrupt). -/
def runCandidates : LoopState → List Cand → LoopState × Bool
  | st, [] => (st, false)
  | st, (i, cfg, ev) :: rest =>
    match ev with
    | .interrupt => (st, true)
    | .resetFail => runCandidates st rest
    | .tested m => runCandidates (applyTested st i cfg m) rest

/-- The state right after the baseline record is appended (lines 497-507):
history `[record 0]`, `best_rps = initial_rps`, `best_config` the initial
configuration. -/
def initState (r0 : IterationRecord) : LoopState :=
  { history := [r0], best_rps := r0.metrics.rps, best_config := r0.config }

/-- History file written on normal completion (line 558). -/
def historyFileNormal : String := "optimization_history.json"

/-- History file written when the run is interrupted (line 571). -/
def historyFileOnInterrupt : String := "optimization_history_partial.json"

/-- What a whole run leaves behind: the final history, where it was
persisted (`none` = not persisted), and whether a report was generated. -/
structure RunOutcome where
  history : List IterationRecord
  historyPath : Option String
  reportGenerated : Bool
deriving DecidableEq

/-- The driver from the baseline record onward.  On normal exhaustion the
report is generated and the history saved to `optimization_history.json`;
on `KeyboardInterrupt` the handler writes the accumulated history (if
non-empty) to the separate path and generates no report; in both cases the
function returns normally — the interrupt is not re-raised. -/
def driverOutcome (r0 : IterationRecord) (agenda : List Cand) : RunOutcome :=
  let res := runCandidates (initState r0) agenda
  if res.2 then
    { history := res.1.history,
      historyPath := if res.1.history.isEmpty then none else some historyFileOnInterrupt,
      reportGenerated := false }
  else
    { history := res.1.history,
      historyPath := some historyFileNormal,
      reportGenerated := true }

/-- The record a `tested` agenda entry contributes to the history. -/
def recOf : Cand → Option IterationRecord
  | (i, cfg, .tested m) => some ⟨i, cfg, m⟩
  | (_, _, .resetFail) => none
  | (_, _, .interrupt) => none

/-! ### Report generation (`generate_report`) -/

/-- One step of Python `max(history, key=lambda x: x['metrics'].get('rps', 0))`:
`max` keeps the current element unless a strictly larger key appears. -/
def bestStep (acc x : IterationRecord) : IterationRecord :=
  if x.metrics.rps > acc.metrics.rps then x else acc

/-- The best-iteration selection of `generate_report` (line 279).  Python
`max` raises on an empty sequence, so the empty history yields `none`. -/
def bestIter : List IterationRecord → Option IterationRecord
  | [] => none
  | r :: rs => some (rs.foldl bestStep r)

/-- The improvement computation shared by `generate_report` (lines 287-289)
and `main` (lines 547-549): initialised to 0 and only recomputed when the
initial rps is strictly positive. -/
def improvement (initial_rps best_rps : ℚ) : ℚ :=
  if 0 < initial_rps then (best_rps - initial_rps) / initial_rps * 100 else 0

/-! ### Concrete fixtures used to instantiate the theorems -/

/-- A metrics value whose throughput is `q` and whose other fields are the
zero defaults. -/
def mRps (q : ℚ) : Metrics := { zeroMetrics with rps := q }

/-- A grid candidate configuration. -/
def cfgB : NginxConfig := ⟨2048, 120, 64⟩

/-- Another grid candidate configuration. -/
def cfgC : NginxConfig := ⟨512, 30, 16⟩

/-- The baseline record with throughput 50. -/
def rec50 : IterationRecord := ⟨0, get_default_config, mRps 50⟩

/-- Candidate record with throughput 80. -/
def rec80 : IterationRecord := ⟨1, cfgB, mRps 80⟩

/-- Candidate record with throughput 65. -/
def rec65 : IterationRecord := ⟨2, cfgC, mRps 65⟩

/-- The aggregated row of the spec example: `Requests/s=150.5`,
`Request Count=1000`, `Failure Count=10` (150.5 = 301/2 exactly). -/
def aggRowExample : Row :=
  { typeField := some "Aggregated", nameField := none,
    requests_s := .good (301 / 2), avg_response_time := .good 12,
    request_count := .good 1000, failure_count := .good 10 }

/-- A per-endpoint row that is not the aggregate row. -/
def plainRow : Row :=
  { typeField := some "GET", nameField := some "/api/todos",
    requests_s := .good 100, avg_response_time := .good 5,
    request_count := .good 500, failure_count := .good 0 }

/-- An aggregate row whose `Requests/s` cell converts but whose
`Average Response Time` cell raises on conversion. -/
def partRow : Row :=
  { typeField := some "Aggregated", nameField := none,
    requests_s := .good (301 / 2), avg_response_time := .bad,
    request_count := .missing, failure_count := .missing }

/-- A representative nginx.conf: a `worker_connections` directive, a
`keepalive_timeout` directive, a `keepalive` inside `upstream backend`, and
a second `keepalive` outside that block. -/
def nginxFileOrig : String :=
  "events \x7b\n    worker_connections 1024;\n\x7d\nhttp \x7b\n    keepalive_timeout 65;\n    upstream backend \x7b\n        server app1:8000;\n        keepalive 32;\n    \x7d\n    server \x7b\n        keepalive 99;\n    \x7d\n\x7d\n"

/-- `nginxFileOrig` with only the `worker_connections` value rewritten. -/
def nginxFileWC : String :=
  "events \x7b\n    worker_connections 2048;\n\x7d\nhttp \x7b\n    keepalive_timeout 65;\n    upstream backend \x7b\n        server app1:8000;\n        keepalive 32;\n    \x7d\n    server \x7b\n        keepalive 99;\n    \x7d\n\x7d\n"

/-- `nginxFileOrig` with only the in-block `keepalive` value rewritten: the
`keepalive 99;` outside `upstream backend` is untouched. -/
def nginxFileUK : String :=
  "events \x7b\n    worker_connections 1024;\n\x7d\nhttp \x7b\n    keepalive_timeout 65;\n    upstream backend \x7b\n        server app1:8000;\n        keepalive 64;\n    \x7d\n    server \x7b\n        keepalive 99;\n    \x7d\n\x7d\n"

/-- A world in which the test script outlives `duration + 120` seconds. -/
def worldTimeout : LoadTestWorld := ⟨181, some []⟩

/-- A world in which the results directory does not exist. -/
def worldNoDir : LoadTestWorld := ⟨50, none⟩

/-- A world whose results directory holds no `test_*_stats.csv` file. -/
def worldNoCsv : LoadTestWorld := ⟨50, some [⟨"readme.txt", 5, some []⟩]⟩

/-! ### Helper lemmas -/

/-- Rows before the first aggregate row are skipped without touching the
metrics dictionary. -/
theorem parseRows_append_of_not_agg (pre rest : List Row) (m : Metrics)
    (h : ∀ r ∈ pre, isAgg r = false) :
    parseRows (pre ++ rest) m = parseRows rest m := by
  induction pre with
  | nil => rfl
  | cons x xs ih =>
    have hx : isAgg x = false := h x (List.mem_cons_self x xs)
    have hxs : ∀ r ∈ xs, isAgg r = false := fun r hr => h r (List.mem_cons_of_mem x hr)
    simp only [List.cons_append, parseRows, hx, Bool.false_eq_true, if_false]
    exact ih hxs

/-- `applyTested` always appends exactly the new record to the history,
whichever branch the best-so-far update takes. -/
theorem applyTested_history (st : LoopState) (i : Nat) (cfg : NginxConfig) (m : Metrics) :
    (applyTested st i cfg m).history = st.history ++ [⟨i, cfg, m⟩] := by
  simp only [applyTested]
  split <;> rfl

/-- `applyTested` leaves all other state fields alone unless the strict
comparison fires. -/
theorem applyTested_best_of_le (st : LoopState) (i : Nat) (cfg : NginxConfig) (m : Metrics)
    (h : ¬ m.rps > st.best_rps) :
    (applyTested st i cfg m).best_rps = st.best_rps ∧
      (applyTested st i cfg m).best_config = st.best_config := by
  simp only [applyTested]
  split
  next hgt => exact absurd hgt h
  next => exact ⟨rfl, rfl⟩

/-- The throughput selected by `applyTested`, as a conditional. -/
theorem applyTested_best_rps (st : LoopState) (i : Nat) (cfg : NginxConfig) (m : Metrics) :
    (applyTested st i cfg m).best_rps =
      if m.rps > st.best_rps then m.rps else st.best_rps := by
  simp only [applyTested]
  split <;> rfl

/-- The configuration selected by `applyTested`, as a conditional. -/
theorem applyTested_best_config (st : LoopState) (i : Nat) (cfg : NginxConfig) (m : Metrics) :
    (applyTested st i cfg m).best_config =
      if m.rps > st.best_rps then cfg else st.best_config := by
  simp only [applyTested]
  split <;> rfl

/-- The throughput of a `bestStep` result, as a conditional. -/
theorem bestStep_rps (b x : IterationRecord) :
    (bestStep b x).metrics.rps =
      if x.metrics.rps > b.metrics.rps then x.metrics.rps else b.metrics.rps := by
  unfold bestStep
  split <;> rfl

/-- The configuration of a `bestStep` result, as a conditional. -/
theorem bestStep_config (b x : IterationRecord) :
    (bestStep b x).config =
      if x.metrics.rps > b.metrics.rps then x.config else b.config := by
  unfold bestStep
  split <;> rfl

/-- The accumulator's throughput never decreases along the fold of
`bestStep`. -/
theorem le_foldl_bestStep (l : List IterationRecord) (acc : IterationRecord) :
    acc.metrics.rps ≤ (l.foldl bestStep acc).metrics.rps := by
  induction l generalizing acc with
  | nil => exact le_refl _
  | cons y ys ih =>
    refine le_trans ?_ (ih (bestStep acc y))
    unfold bestStep
    split
    · exact le_of_lt (by assumption)
    · exact le_refl _

/-- Every element of the list is bounded by the fold of `bestStep`. -/
theorem mem_le_foldl_bestStep (l : List IterationRecord) (acc x : IterationRecord)
    (hx : x ∈ l) : x.metrics.rps ≤ (l.foldl bestStep acc).metrics.rps := by
  induction l generalizing acc with
  | nil => cases hx
  | cons y ys ih =>
    rcases List.mem_cons.mp hx with rfl | hmem
    · refine le_trans ?_ (le_foldl_bestStep ys (bestStep acc x))
      unfold bestStep
      split
      · exact le_refl _
      · exact le_of_not_lt (by assumption)
    · exact ih (bestStep acc y) hmem

/-- The fold of `bestStep` selects the earliest element attaining its
value: everything strictly before it in `acc :: l` has strictly smaller
throughput. -/
theorem foldl_bestStep_first (l : List IterationRecord) (acc : IterationRecord) :
    ∃ l₁ l₂, acc :: l = l₁ ++ (l.foldl bestStep acc) :: l₂ ∧
      ∀ x ∈ l₁, x.metrics.rps < (l.foldl bestStep acc).metrics.rps := by
  induction l generalizing acc with
  | nil => exact ⟨[], [], rfl, by simp⟩
  | cons y ys ih =>
    by_cases hy : y.metrics.rps > acc.metrics.rps
    · have hstep : bestStep acc y = y := by unfold bestStep; simp [hy]
      obtain ⟨m₁, m₂, hdec, hlt⟩ := ih y
      refine ⟨acc :: m₁, m₂, ?_, ?_⟩
      · rw [List.foldl_cons, hstep, List.cons_append]
        exact congrArg (List.cons acc) hdec
      · intro x hx
        rw [List.foldl_cons, hstep]
        rcases List.mem_cons.mp hx with rfl | hmem
        · exact lt_of_lt_of_le hy (le_foldl_bestStep ys y)
        · exact hlt x hmem
    · have hstep : bestStep acc y = acc := by unfold bestStep; simp [hy]
      obtain ⟨m₁, m₂, hdec, hlt⟩ := ih acc
      cases m₁ with
      | nil =>
        simp only [List.nil_append] at hdec
        injection hdec with h1 h2
        refine ⟨[], y :: ys, ?_, by simp⟩
        simp only [List.foldl_cons, hstep, List.nil_append]
        rw [← h1]
      | cons a m₁t =>
        rw [List.cons_append] at hdec
        injection hdec with h1 h2
        subst h1
        refine ⟨acc :: y :: m₁t, m₂, ?_, ?_⟩
        · rw [List.foldl_cons, hstep, List.cons_append, List.cons_append]
          exact congrArg (List.cons acc) (congrArg (List.cons y) h2)
        · intro x hx
          rw [List.foldl_cons, hstep]
          rcases List.mem_cons.mp hx with rfl | hx2
          · exact hlt x (List.mem_cons_self _ _)
          · rcases List.mem_cons.mp hx2 with rfl | hx3
            · exact lt_of_le_of_lt (le_of_not_lt hy) (hlt acc (List.mem_cons_self _ _))
            · exact hlt x (List.mem_cons_of_mem acc hx3)

/-- Running the loop over a concatenation: if the first part does not get
interrupted, the loop simply continues into the second part. -/
theorem runCandidates_append (l1 l2 : List Cand) (st : LoopState)
    (h : (runCandidates st l1).2 = false) :
    runCandidates st (l1 ++ l2) = runCandidates (runCandidates st l1).1 l2 := by
  induction l1 generalizing st with
  | nil => rfl
  | cons c rest ih =>
    obtain ⟨i, cfg, ev⟩ := c
    cases ev with
    | interrupt => exact absurd h (by simp [runCandidates])
    | resetFail =>
      simp only [List.cons_append, runCandidates] at h ⊢
      exact ih _ h
    | tested m =>
      simp only [List.cons_append, runCandidates] at h ⊢
      exact ih _ h

/-- A loop segment free of interrupts ends uninterrupted, and its history
is exactly the starting history followed by one record per `tested`
event. -/
theorem runCandidates_no_interrupt (l : List Cand) (st : LoopState)
    (h : ∀ c ∈ l, c.2.2 ≠ IterEvent.interrupt) :
    (runCandidates st l).2 = false ∧
      (runCandidates st l).1.history = st.history ++ l.filterMap recOf := by
  induction l generalizing st with
  | nil => exact ⟨rfl, by simp [runCandidates]⟩
  | cons c rest ih =>
    obtain ⟨i, cfg, ev⟩ := c
    have hrest : ∀ c ∈ rest, c.2.2 ≠ IterEvent.interrupt :=
      fun c hc => h c (List.mem_cons_of_mem _ hc)
    cases ev with
    | interrupt => exact absurd rfl (h (i, cfg, IterEvent.interrupt) (List.mem_cons_self _ _))
    | resetFail =>
      obtain ⟨h2, h3⟩ := ih st hrest
      exact ⟨h2, by simpa [runCandidates, recOf] using h3⟩
    | tested m =>
      obtain ⟨h2, h3⟩ := ih (applyTested st i cfg m) hrest
      refine ⟨h2, ?_⟩
      simp only [runCandidates, List.filterMap_cons, recOf] at h3 ⊢
      rw [h3, applyTested_history]
      simp

/-- The driver invariant tying the best-so-far pair of `main` to the fold
of `bestStep` over the history: it holds initially and is preserved by
every loop step. -/
theorem runCandidates_best_spec (agenda : List Cand) (st : LoopState)
    (h0 : IterationRecord) (hs : List IterationRecord)
    (hh : st.history = h0 :: hs)
    (hb : st.best_rps = (hs.foldl bestStep h0).metrics.rps)
    (hc : st.best_config = (hs.foldl bestStep h0).config) :
    ∃ hs2, (runCandidates st agenda).1.history = h0 :: hs2 ∧
      (runCandidates st agenda).1.best_rps = (hs2.foldl bestStep h0).metrics.rps ∧
      (runCandidates st agenda).1.best_config = (hs2.foldl bestStep h0).config := by
  induction agenda generalizing st hs with
  | nil => exact ⟨hs, hh, hb, hc⟩
  | cons c rest ih =>
    obtain ⟨i, cfg, ev⟩ := c
    cases ev with
    | interrupt => exact ⟨hs, hh, hb, hc⟩
    | resetFail => exact ih st hs hh hb hc
    | tested m =>
      refine ih (applyTested st i cfg m) (hs ++ [⟨i, cfg, m⟩]) ?_ ?_ ?_
      · rw [applyTested_history, hh]
        rfl
      · rw [List.foldl_append]
        simp only [List.foldl_cons, List.foldl_nil]
        rw [applyTested_best_rps, bestStep_rps, hb]
      · rw [List.foldl_append]
        simp only [List.foldl_cons, List.foldl_nil]
        rw [applyTested_best_config, bestStep_config, hb, hc]

/-- Nonnegativity of the best-so-far throughput is preserved by the loop. -/
theorem runCandidates_best_nonneg (l : List Cand) (st : LoopState)
    (h : 0 ≤ st.best_rps) : 0 ≤ (runCandidates st l).1.best_rps := by
  induction l generalizing st with
  | nil => exact h
  | cons c rest ih =>
    obtain ⟨i, cfg, ev⟩ := c
    cases ev with
    | interrupt => exact h
    | resetFail => exact ih st h
    | tested m =>
      refine ih (applyTested st i cfg m) ?_
      simp only [applyTested]
      split
      next hgt => exact le_of_lt (lt_of_le_of_lt h hgt)
      next => exact h

/-- Length of the inner double product of `generate_grid_configs`. -/
theorem length_pair_product {β γ δ : Type} (f : β → γ → δ) (l2 : List β) (l3 : List γ) :
    (l2.flatMap fun b => l3.map fun c => f b c).length = l2.length * l3.length := by
  induction l2 with
  | nil => simp
  | cons b bs ih => simp [ih, Nat.succ_mul, Nat.add_comm]

/-- Length of the triple cross product. -/
theorem length_triple_product {α β γ δ : Type} (f : α → β → γ → δ)
    (l1 : List α) (l2 : List β) (l3 : List γ) :
    (l1.flatMap fun a => l2.flatMap fun b => l3.map fun c => f a b c).length =
      l1.length * l2.length * l3.length := by
  induction l1 with
  | nil => simp
  | cons a as ih =>
    simp only [List.flatMap_cons, List.length_append, ih, length_pair_product,
      List.length_cons, Nat.succ_mul]
    ring

/-- The `worker_connections` axis has exactly `g` samples. -/
theorem wcValues_length (g : Nat) : (wcValues g).length = g := by
  unfold wcValues
  split
  · rw [List.length_take]
    simp only [List.length_cons, List.length_nil]
    omega
  · rw [List.length_map, List.length_range]

/-- The `keepalive_timeout` axis has exactly `g` samples. -/
theorem ktValues_length (g : Nat) : (ktValues g).length = g := by
  unfold ktValues
  split
  · rw [List.length_take]
    simp only [List.length_cons, List.length_nil]
    omega
  · rw [List.length_map, List.length_range]

/-- The `upstream_keepalive` axis has exactly `g` samples. -/
theorem ukValues_length (g : Nat) : (ukValues g).length = g := by
  unfold ukValues
  split
  · rw [List.length_take]
    simp only [List.length_cons, List.length_nil]
    omega
  · rw [List.length_map, List.length_range]

/-! ### Claim theorems -/

/-- Claim C1: for every run (hence every non-empty history, since the
baseline record is always present), the report generator's
maximum-by-throughput selection (`bestIter`, Python `max` with key `rps`)
returns a record `b` that agrees with the driver's best-so-far pair
(`best_rps`, `best_config`), has maximal throughput over the whole
history, and is the earliest such record: everything before it in the
history (whose order is iteration order) has strictly smaller throughput
— the strict `>` update makes first-seen win ties. -/
theorem c1_best_result_agreement (r0 : IterationRecord) (agenda : List Cand) :
    ∃ b l₁ l₂,
      bestIter (runCandidates (initState r0) agenda).1.history = some b ∧
      (runCandidates (initState r0) agenda).1.best_rps = b.metrics.rps ∧
      (runCandidates (initState r0) agenda).1.best_config = b.config ∧
      (runCandidates (initState r0) agenda).1.history = l₁ ++ b :: l₂ ∧
      (∀ x ∈ l₁, x.metrics.rps < b.metrics.rps) ∧
      (∀ x ∈ (runCandidates (initState r0) agenda).1.history,
        x.metrics.rps ≤ b.metrics.rps) := by
  obtain ⟨hs2, hh, hb, hc⟩ :=
    runCandidates_best_spec agenda (initState r0) r0 [] rfl rfl rfl
  obtain ⟨l₁, l₂, hdec, hlt⟩ := foldl_bestStep_first hs2 r0
  refine ⟨hs2.foldl bestStep r0, l₁, l₂, ?_, hb, hc, ?_, hlt, ?_⟩
  · rw [hh]
    rfl
  · rw [hh]
    exact hdec
  · intro x hx
    rw [hh] at hx
    rcases List.mem_cons.mp hx with rfl | hmem
    · exact le_foldl_bestStep hs2 x
    · exact mem_le_foldl_bestStep hs2 r0 x hmem

/-- Claim C2: on the history with throughputs `[50, 80, 65]` the best
record is the one with throughput 80 and the improvement over the first
record is `+60.0%`; in general the improvement equals
`(best − initial) / initial × 100` when the baseline throughput is
positive and is left at its 0 initialisation when the baseline throughput
is 0. -/
theorem c2_improvement_example :
    bestIter [rec50, rec80, rec65] = some rec80 ∧
    improvement 50 80 = 60 ∧
    (∀ i b : ℚ, 0 < i → improvement i b = (b - i) / i * 100) ∧
    (∀ b : ℚ, improvement 0 b = 0) := by
  refine ⟨?_, ?_, ?_, ?_⟩
  · rfl
  · unfold improvement
    norm_num
  · intro i b hi
    unfold improvement
    rw [if_pos hi]
  · intro b
    unfold improvement
    norm_num

/-- Witness for C2: the general improvement formula applied at the
concrete baseline/best pair of the example. -/
theorem c2_improvement_example_w : improvement 50 80 = (80 - 50) / 50 * 100 :=
  c2_improvement_example.2.2.1 50 80 (by norm_num)

/-- Claim C3: the candidate generator returns exactly `g ^ 3`
configurations for every grid size `g ≥ 0` (each axis is sampled at `g`
points, whether `g ≤ 4` or not), and after any shuffle (an arbitrary
permutation) and the driver's truncation the candidate list has length
`min requested_iterations (g ^ 3)`. -/
theorem c3_grid_and_truncation (g iterations : Nat) (shuffled : List NginxConfig)
    (hperm : shuffled.Perm (generate_grid_configs g)) :
    (generate_grid_configs g).length = g ^ 3 ∧
    (truncateConfigs iterations shuffled).length = min iterations (g ^ 3) := by
  have hlen : (generate_grid_configs g).length = g ^ 3 := by
    unfold generate_grid_configs
    rw [length_triple_product, wcValues_length, ktValues_length, ukValues_length]
    ring
  refine ⟨hlen, ?_⟩
  have hs : shuffled.length = g ^ 3 := by rw [hperm.length_eq, hlen]
  unfold truncateConfigs
  split
  next hlt => rw [List.length_take, hs]
  next hge =>
    rw [hs] at hge ⊢
    exact (Nat.min_eq_right (le_of_not_lt hge)).symm

/-- Witness for C3: a grid of size 3 (27 configurations) truncated to a
5-iteration budget keeps exactly 5 candidates. -/
theorem c3_grid_and_truncation_w :
    (truncateConfigs 5 (generate_grid_configs 3)).length = 5 :=
  ((c3_grid_and_truncation 3 5 (generate_grid_configs 3) (List.Perm.refl _)).2).trans
    (by norm_num)

/-- Claim C4: the parser extracts its four metrics from the first row whose
Type or Name field equals "Aggregated" and stops there — the rows after it
are arbitrary and do not influence the result.  Throughput and latency are
read as (exact) numbers, the counts as integers, and the success rate is
`(total − failures) / total × 100` when `total > 0`, and stays at its zero
default otherwise. -/
theorem c4_parse_aggregated_row (pre post : List Row) (r : Row) (rps art : ℚ)
    (tr tf : Int)
    (hpre : ∀ x ∈ pre, isAgg x = false) (hr : isAgg r = true)
    (h1 : r.requests_s = FVal.good rps) (h2 : r.avg_response_time = FVal.good art)
    (h3 : r.request_count = FVal.good tr) (h4 : r.failure_count = FVal.good tf) :
    (0 < tr →
      parse_locust_results (some (pre ++ r :: post)) =
        { rps := rps, avg_response_time := art, total_requests := tr,
          success_rate := ((tr : ℚ) - (tf : ℚ)) / (tr : ℚ) * 100, error := none }) ∧
    (¬ 0 < tr →
      parse_locust_results (some (pre ++ r :: post)) =
        { rps := rps, avg_response_time := art, total_requests := 0,
          success_rate := 0, error := none }) := by
  have hskip : parse_locust_results (some (pre ++ r :: post)) =
      parseRows (r :: post) zeroMetrics :=
    parseRows_append_of_not_agg pre (r :: post) zeroMetrics hpre
  constructor <;> intro htr <;>
    · rw [hskip]
      simp [parseRows, hr, h1, h2, h3, h4, FVal.conv, htr, zeroMetrics]

/-- Witness for C4: the spec's concrete artifact — a single aggregated row
with `Requests/s = 150.5`, `Request Count = 1000`, `Failure Count = 10` —
parses to `rps = 150.5`, `total_requests = 1000`, `success_rate = 99`. -/
theorem c4_parse_aggregated_row_w :
    parse_locust_results (some [aggRowExample]) =
      { rps := 301 / 2, avg_response_time := 12, total_requests := 1000,
        success_rate := 99, error := none } := by
  have h := (c4_parse_aggregated_row [] [] aggRowExample (301 / 2) 12 1000 10
    (by simp) rfl rfl rfl rfl rfl).1 (by norm_num)
  rw [show (((1000 : Int) : ℚ) - ((10 : Int) : ℚ)) / ((1000 : Int) : ℚ) * 100 = 99
    from by norm_num] at h
  exact h

/-- Counterexample to claim C5 as stated: an artifact whose aggregated row
has a convertible `Requests/s` cell but an `Average Response Time` cell
that raises on conversion does NOT yield the zero-valued Metrics — the
`rps` field was already assigned before the exception, and the handler
returns the partially-filled Metrics. -/
theorem c5_counterexample :
    parse_locust_results (some [partRow]) = { zeroMetrics with rps := 301 / 2 } ∧
    ({ zeroMetrics with rps := 301 / 2 } : Metrics) ≠ zeroMetrics := by
  refine ⟨rfl, ?_⟩
  intro h
  have h2 := congrArg Metrics.rps h
  simp only [zeroMetrics] at h2
  norm_num at h2

/-- Claim C5 (amended): the parser never propagates an exception.  An
artifact with zero matching rows, an artifact that cannot be read at all,
and an artifact whose first matching row raises on its very first field
conversion all yield the zero-valued Metrics; but a conversion failure on
a later field returns the Metrics accumulated so far — e.g. with `rps`
already set — rather than the zero Metrics. -/
theorem c5_parse_never_raises :
    parse_locust_results none = zeroMetrics ∧
    (∀ rows : List Row, (∀ r ∈ rows, isAgg r = false) →
      parse_locust_results (some rows) = zeroMetrics) ∧
    (∀ (pre post : List Row) (row : Row), (∀ r ∈ pre, isAgg r = false) →
      isAgg row = true → row.requests_s = FVal.bad →
      parse_locust_results (some (pre ++ row :: post)) = zeroMetrics) ∧
    (∀ (pre post : List Row) (row : Row) (q : ℚ), (∀ r ∈ pre, isAgg r = false) →
      isAgg row = true → row.requests_s = FVal.good q →
      row.avg_response_time = FVal.bad →
      parse_locust_results (some (pre ++ row :: post)) =
        { zeroMetrics with rps := q }) := by
  refine ⟨rfl, ?_, ?_, ?_⟩
  · intro rows h
    have h1 := parseRows_append_of_not_agg rows [] zeroMetrics h
    rw [List.append_nil] at h1
    exact h1
  · intro pre post row hpre hagg hbad
    have h1 := parseRows_append_of_not_agg pre (row :: post) zeroMetrics hpre
    refine h1.trans ?_
    simp [parseRows, hagg, hbad, FVal.conv]
  · intro pre post row q hpre hagg hgood hbad
    have h1 := parseRows_append_of_not_agg pre (row :: post) zeroMetrics hpre
    refine h1.trans ?_
    simp [parseRows, hagg, hgood, hbad, FVal.conv]

/-- Witness for the amended C5: a no-match artifact parses to zero
Metrics, and the partial-fill artifact keeps its already-extracted
throughput. -/
theorem c5_parse_never_raises_w :
    parse_locust_results (some [plainRow]) = zeroMetrics ∧
    parse_locust_results (some [plainRow, partRow]) =
      { zeroMetrics with rps := 301 / 2 } := by
  constructor
  · refine c5_parse_never_raises.2.1 [plainRow] ?_
    intro r hr
    rw [List.mem_singleton] at hr
    subst hr
    decide
  · refine c5_parse_never_raises.2.2.2 [plainRow] [] partRow (301 / 2) ?_ rfl rfl rfl
    intro r hr
    rw [List.mem_singleton] at hr
    subst hr
    decide

set_option maxRecDepth 40000 in
/-- Claim C6: applying a configuration rewrites only the matched numeric
tokens.  On the representative file: `worker_connections=2048` turns
`worker_connections 1024;` into `worker_connections 2048;` and leaves
every other byte unchanged; `upstream_keepalive=64` rewrites the
`keepalive 32;` directive inside the `upstream backend` block while the
`keepalive 99;` directive outside that block (and everything else) is
byte-identical; and a configuration carrying none of the recognised keys
leaves any file untouched. -/
theorem c6_config_substitution :
    apply_nginx_config ⟨some 2048, none, none⟩ nginxFileOrig.data = nginxFileWC.data ∧
    apply_nginx_config ⟨none, none, some 64⟩ nginxFileOrig.data = nginxFileUK.data ∧
    (∀ content : List Char, apply_nginx_config ⟨none, none, none⟩ content = content) := by
  exact ⟨rfl, rfl, fun _ => rfl⟩

/-- Claim C7: a candidate iteration whose environment reset fails appends
no record, leaves best-so-far untouched, and the loop continues exactly as
if that candidate were not in the agenda; a single reset-failing candidate
leaves the whole loop state unchanged. -/
theorem c7_reset_failure_skips (st : LoopState) (pre post : List Cand)
    (i : Nat) (cfg : NginxConfig) :
    runCandidates st (pre ++ (i, cfg, IterEvent.resetFail) :: post) =
      runCandidates st (pre ++ post) ∧
    (runCandidates st [(i, cfg, IterEvent.resetFail)]).1 = st := by
  refine ⟨?_, rfl⟩
  induction pre generalizing st with
  | nil => rfl
  | cons c rest ih =>
    obtain ⟨j, c2, ev⟩ := c
    cases ev with
    | interrupt => rfl
    | resetFail => exact ih st
    | tested m => exact ih (applyTested st j c2 m)

/-- Claim C8: when the interrupt arrives while a candidate is being
processed, the driver persists exactly the records completed so far (the
baseline plus one record per completed candidate before the interrupt) to
`optimization_history_partial.json` — a path distinct from the
normal-completion `optimization_history.json` — and generates no report;
`driverOutcome` returning a value at all models the handler swallowing the
interrupt instead of re-raising it. -/
theorem c8_interrupt_saves_history (r0 : IterationRecord) (pre post : List Cand)
    (i : Nat) (cfg : NginxConfig)
    (hpre : ∀ c ∈ pre, c.2.2 ≠ IterEvent.interrupt) :
    driverOutcome r0 (pre ++ (i, cfg, IterEvent.interrupt) :: post) =
      { history := r0 :: pre.filterMap recOf,
        historyPath := some historyFileOnInterrupt,
        reportGenerated := false } ∧
    historyFileOnInterrupt ≠ historyFileNormal := by
  obtain ⟨hfin, hhist⟩ := runCandidates_no_interrupt pre (initState r0) hpre
  have hcomp := runCandidates_append pre ((i, cfg, IterEvent.interrupt) :: post)
    (initState r0) hfin
  have hrun : runCandidates (initState r0) (pre ++ (i, cfg, IterEvent.interrupt) :: post) =
      ((runCandidates (initState r0) pre).1, true) := by
    rw [hcomp]
    rfl
  refine ⟨?_, by decide⟩
  unfold driverOutcome
  simp only [hrun]
  rw [hhist]
  simp [initState, List.isEmpty_cons]

/-- Witness for C8: interrupting during the third of five candidates, after
two completed iterations, persists the baseline plus those two records to
the partial path and generates no report. -/
theorem c8_interrupt_saves_history_w :
    driverOutcome rec50
      [(1, cfgB, IterEvent.tested (mRps 80)), (2, cfgC, IterEvent.tested (mRps 65)),
        (3, cfgB, IterEvent.interrupt), (4, cfgC, IterEvent.tested (mRps 70)),
        (5, cfgB, IterEvent.resetFail)] =
      { history := [rec50, rec80, rec65],
        historyPath := some historyFileOnInterrupt,
        reportGenerated := false } := by
  have h := (c8_interrupt_saves_history rec50
    [(1, cfgB, IterEvent.tested (mRps 80)), (2, cfgC, IterEvent.tested (mRps 65))]
    [(4, cfgC, IterEvent.tested (mRps 70)), (5, cfgB, IterEvent.resetFail)]
    3 cfgB (by decide)).1
  exact h

/-- Claim C9: every failure path of the load-test runner returns the
zero-valued Metrics with a descriptive error rather than raising or
hanging: an invocation outliving `duration + 120` seconds yields the
time-limit error ("Тест превысил максимальное время", i.e. "test exceeded
maximum time"), a missing results directory yields its own error, and an
empty set of matching `test_*_stats.csv` artifacts yields a third; the
three error strings are pairwise distinct, so the time-limit failure is
distinguishable. -/
theorem c9_load_test_failure_paths :
    (∀ (d : Nat) (w : LoadTestWorld), d + 120 < w.elapsed →
      run_load_test d w = { zeroMetrics with error := some timeLimitError }) ∧
    (∀ (d : Nat) (w : LoadTestWorld), ¬ d + 120 < w.elapsed → w.resultsDir = none →
      run_load_test d w = { zeroMetrics with error := some noDirError }) ∧
    (∀ (d : Nat) (w : LoadTestWorld) (files : List ArtifactFile),
      ¬ d + 120 < w.elapsed → w.resultsDir = some files →
      files.filter (fun f => matchesStatsGlob f.name) = [] →
      run_load_test d w = { zeroMetrics with error := some noCsvError }) ∧
    (timeLimitError ≠ noDirError ∧ timeLimitError ≠ noCsvError ∧
      noDirError ≠ noCsvError) := by
  refine ⟨?_, ?_, ?_, by decide, by decide, by decide⟩
  · intro d w h
    unfold run_load_test
    rw [if_pos h]
  · intro d w h hdir
    unfold run_load_test
    rw [if_neg h, hdir]
  · intro d w files h hdir hfil
    unfold run_load_test
    rw [if_neg h, hdir]
    simp only [hfil]
    rfl

/-- Witness for C9: the three failure worlds evaluated concretely at a
60-second test duration. -/
theorem c9_load_test_failure_paths_w :
    run_load_test 60 worldTimeout = { zeroMetrics with error := some timeLimitError } ∧
    run_load_test 60 worldNoDir = { zeroMetrics with error := some noDirError } ∧
    run_load_test 60 worldNoCsv = { zeroMetrics with error := some noCsvError } := by
  refine ⟨?_, ?_, ?_⟩
  · exact c9_load_test_failure_paths.1 60 worldTimeout (by decide)
  · exact c9_load_test_failure_paths.2.1 60 worldNoDir (by decide) rfl
  · exact c9_load_test_failure_paths.2.2.1 60 worldNoCsv [⟨"readme.txt", 5, some []⟩]
      (by decide) rfl rfl

/-- Claim C10: when the baseline throughput is nonnegative, the best-so-far
throughput stays nonnegative through the whole loop, and a tested
candidate whose throughput is 0 never becomes best: applying its update
leaves both the best throughput and the best configuration unchanged,
because the update requires strictly greater throughput. -/
theorem c10_zero_throughput_never_best (r0 : IterationRecord) (pre : List Cand)
    (i : Nat) (cfg : NginxConfig) (m : Metrics)
    (h0 : 0 ≤ r0.metrics.rps) (hm : m.rps = 0) :
    0 ≤ (runCandidates (initState r0) pre).1.best_rps ∧
    (applyTested (runCandidates (initState r0) pre).1 i cfg m).best_rps =
      (runCandidates (initState r0) pre).1.best_rps ∧
    (applyTested (runCandidates (initState r0) pre).1 i cfg m).best_config =
      (runCandidates (initState r0) pre).1.best_config := by
  have hnn : 0 ≤ (runCandidates (initState r0) pre).1.best_rps :=
    runCandidates_best_nonneg pre (initState r0) h0
  refine ⟨hnn, ?_, ?_⟩
  · rw [applyTested_best_rps, hm, if_neg (not_lt.mpr hnn)]
  · rw [applyTested_best_config, hm, if_neg (not_lt.mpr hnn)]

/-- Witness for C10: after a baseline of 50 and one candidate measured at
80, a further candidate measured at 0 leaves the best pair unchanged. -/
theorem c10_zero_throughput_never_best_w :
    0 ≤ (runCandidates (initState rec50)
      [(1, cfgB, IterEvent.tested (mRps 80))]).1.best_rps ∧
    (applyTested (runCandidates (initState rec50)
        [(1, cfgB, IterEvent.tested (mRps 80))]).1 2 cfgC (mRps 0)).best_rps =
      (runCandidates (initState rec50)
        [(1, cfgB, IterEvent.tested (mRps 80))]).1.best_rps ∧
    (applyTested (runCandidates (initState rec50)
        [(1, cfgB, IterEvent.tested (mRps 80))]).1 2 cfgC (mRps 0)).best_config =
      (runCandidates (initState rec50)
        [(1, cfgB, IterEvent.tested (mRps 80))]).1.best_config :=
  c10_zero_throughput_never_best rec50 [(1, cfgB, IterEvent.tested (mRps 80))]
    2 cfgC (mRps 0) (by norm_num [rec50, mRps, zeroMetrics]) rfl

end ConfigOpt
